import Mathlib

/-!
Verification of the USB audio HAL (modules/usbaudio/audio_hw.c).

The development shallowly embeds the C source.  Byte buffers are modelled
as functions from addresses to byte values (memory is `Nat → Nat`), and the
two in-place, back-to-front conversion loops are modelled as sequences of
store operations in exactly the order the C code performs them, so that
both the disjoint-buffer and the in-place (source = destination) behaviour
can be proved from the same definition.
-/

namespace UsbAudioHw

/-- Single store into a byte- or sample-addressed memory. -/
def upd (m : Nat → Nat) (a v : Nat) : Nat → Nat :=
  fun x => if x = a then v else m x

/-!
convert_16_to_24_3 (audio_hw.c lines 171-192).

The C loop walks source sample index from the last sample down to the
first; for source sample `s` it performs, in this order,
  dst[3*s+2] := src[2*s+1]   (hi byte)
  dst[3*s+1] := src[2*s]     (low byte)
  dst[3*s]   := 0            (zero byte)
where `src`/`dst` are the byte addresses of the input and output buffers.
-/

/-- One iteration of the convert_16_to_24_3 loop, for source sample `s`. -/
def conv16to24Step (src dst : Nat) (m : Nat → Nat) (s : Nat) : Nat → Nat :=
  let m1 := upd m (dst + (3 * s + 2)) (m (src + (2 * s + 1)))
  let m2 := upd m1 (dst + (3 * s + 1)) (m1 (src + 2 * s))
  upd m2 (dst + 3 * s) 0

/-- The convert_16_to_24_3 loop run for samples `t-1`, `t-2`, ..., `0`,
in that (descending) order, as in the C code. -/
def conv16to24Run (src dst : Nat) : Nat → (Nat → Nat) → Nat → Nat
  | 0, m => m
  | k + 1, m => conv16to24Run src dst k (conv16to24Step src dst m k)

/-- Return value of convert_16_to_24_3: the C code computes
`in_buff_size_in_bytes = num_in_samples * 2` and returns
`(3 * in_buff_size_in_bytes) / 2`. -/
def convert_16_to_24_3_ret (num_in_samples : Nat) : Nat :=
  3 * (num_in_samples * 2) / 2

/-- convert_16_to_24_3: returns the produced byte count together with the
memory after the loop.  `src` and `dst` are the byte addresses of the
input and output buffers inside the memory `m`. -/
def convert_16_to_24_3 (src dst num_in_samples : Nat) (m : Nat → Nat) :
    Nat × (Nat → Nat) :=
  (convert_16_to_24_3_ret num_in_samples,
   conv16to24Run src dst num_in_samples m)

/-- Expected output byte at offset `j` for the 16-to-24 widening of the
input byte sequence `inb`: every 3-byte group is (0, low, hi). -/
def outByte24 (inb : Nat → Nat) (j : Nat) : Nat :=
  if j % 3 = 0 then 0 else inb (2 * (j / 3) + (j % 3 - 1))

/-!
convert_2chan16_to_4chan16 (audio_hw.c lines 205-225).

Memory is addressed in 16-bit samples here (the C code works on
unsigned short pointers).  The loop walks the source from the last
frame down to the first; for source frame `t` (source samples `2*t`
and `2*t+1`) it performs, in this order,
  dst[4*t+3] := 0            (chan 4)
  dst[4*t+2] := 0            (chan 3)
  dst[4*t+1] := src[2*t+1]   (chan 2)
  dst[4*t]   := src[2*t]     (chan 1)
The C loop steps its source index by 2 while it is below
`num_in_samples`, i.e. it runs once per frame; for an even sample count
`n` (the only case a caller may use: an odd count would read before the
start of the buffer) that is `n / 2` iterations.
-/

/-- One iteration of the convert_2chan16_to_4chan16 loop, for frame `t`. -/
def conv2to4Step (src dst : Nat) (m : Nat → Nat) (t : Nat) : Nat → Nat :=
  let m1 := upd m (dst + (4 * t + 3)) 0
  let m2 := upd m1 (dst + (4 * t + 2)) 0
  let m3 := upd m2 (dst + (4 * t + 1)) (m2 (src + (2 * t + 1)))
  upd m3 (dst + 4 * t) (m3 (src + 2 * t))

/-- The convert_2chan16_to_4chan16 loop run for frames `t-1`, ..., `0`,
in that (descending) order, as in the C code. -/
def conv2to4Run (src dst : Nat) : Nat → (Nat → Nat) → Nat → Nat
  | 0, m => m
  | k + 1, m => conv2to4Run src dst k (conv2to4Step src dst m k)

/-- Return value of convert_2chan16_to_4chan16: the C code computes
`out_buff_size = num_in_samples * 2` (in 16-bit samples) and returns
`out_buff_size * 2` bytes. -/
def convert_2chan16_to_4chan16_ret (num_in_samples : Nat) : Nat :=
  num_in_samples * 2 * 2

/-- convert_2chan16_to_4chan16: returns the produced byte count together
with the memory (sample-addressed) after the loop. -/
def convert_2chan16_to_4chan16 (src dst num_in_samples : Nat)
    (m : Nat → Nat) : Nat × (Nat → Nat) :=
  (convert_2chan16_to_4chan16_ret num_in_samples,
   conv2to4Run src dst (num_in_samples / 2) m)

/-- Expected output sample at offset `j` for the 2-to-4 channel expansion
of the input sample sequence `inb`: every 4-sample frame is
(ch1, ch2, 0, 0). -/
def outSample4 (inb : Nat → Nat) (j : Nat) : Nat :=
  if j % 4 ≤ 1 then inb (2 * (j / 4) + j % 4) else 0

/-!
ALSA-side data model.  The pcm_format enumeration, pcm_format_to_bits,
the pcm_config record and the pcm_params min/max queries belong to the
external tinyalsa transport; they are modelled here from that interface
(enumeration order and bit widths as in tinyalsa asoundlib.h) because
bits_to_alsa_format and read_alsa_device_config in the source scan them.
-/

/-- The tinyalsa pcm_format enumeration, in its declaration order:
S16_LE = 0, S32_LE, S8, S24_LE, S24_3LE, then PCM_FORMAT_MAX. -/
inductive pcm_format where
  | S16_LE
  | S32_LE
  | S8
  | S24_LE
  | S24_3LE
deriving DecidableEq, Repr

/-- The formats below PCM_FORMAT_MAX in ascending enumeration order;
this is the scan order of the loop in bits_to_alsa_format. -/
def formatScanOrder : List pcm_format :=
  [.S16_LE, .S32_LE, .S8, .S24_LE, .S24_3LE]

/-- tinyalsa pcm_format_to_bits (external transport helper). -/
def pcm_format_to_bits : pcm_format → Nat
  | .S32_LE => 32
  | .S24_LE => 32
  | .S24_3LE => 24
  | .S16_LE => 16
  | .S8 => 8

/-- tinyalsa pcm_config record (only the fields the source uses). -/
structure pcm_config where
  channels : Nat
  rate : Nat
  period_size : Nat
  period_count : Nat
  format : pcm_format
  start_threshold : Nat := 0
  stop_threshold : Nat := 0
  silence_threshold : Nat := 0
deriving DecidableEq, Repr

/-- Capability ranges reported by the transport for one (card, device,
direction): the pcm_params_get_min / pcm_params_get_max values for the
parameters the source queries. -/
structure pcm_params where
  rate_min : Nat
  rate_max : Nat
  channels_min : Nat
  channels_max : Nat
  periods_min : Nat
  periods_max : Nat
  sample_bits_min : Nat
  sample_bits_max : Nat
deriving DecidableEq, Repr

/-- errno values used by the source. -/
def EINVAL : Int := 22

/-- errno values used by the source. -/
def ENOMEM : Int := 12

/-- bits_to_alsa_format (audio_hw.c lines 234-243): scan the pcm_format
enumeration upward from PCM_FORMAT_S16_LE and return the first format
whose bit width equals `bits_per_sample`, or `default_format` when no
format matches. -/
def bits_to_alsa_format (bits_per_sample : Nat) (default_format : pcm_format) :
    pcm_format :=
  match formatScanOrder.find? (fun f => pcm_format_to_bits f = bits_per_sample) with
  | some f => f
  | none => default_format

/-- read_alsa_device_config (audio_hw.c lines 248-286).  The transport
query pcm_params_get(card, device, io_type) is abstracted into the
`alsa_hw_params` argument (`none` models a NULL result).  Returns the
error code together with the (possibly updated) config record. -/
def read_alsa_device_config (card device : Int)
    (alsa_hw_params : Option pcm_params) (config : pcm_config) :
    Int × pcm_config :=
  if card < 0 ∨ device < 0 then
    (-EINVAL, config)
  else
    match alsa_hw_params with
    | none => (-EINVAL, config)
    | some p =>
      (0, { config with
             channels := p.channels_min,
             rate := p.rate_min,
             period_size := p.periods_max,
             period_count := p.periods_min,
             format := bits_to_alsa_format p.sample_bits_min .S16_LE })

/-!
Android framework-side data model (system/audio.h collaborators).
-/

/-- The audio_format_t values the source mentions. -/
inductive audio_format_t where
  | PCM_16_BIT
  | PCM_8_BIT
  | PCM_32_BIT
  | PCM_8_24_BIT
deriving DecidableEq, Repr

/-- The AUDIO_CHANNEL_OUT_STEREO mask (FRONT_LEFT 0x1 | FRONT_RIGHT 0x2). -/
def AUDIO_CHANNEL_OUT_STEREO : Nat := 3

/-- Bytes per sample for an audio_format_t (external system/audio.h helper). -/
def audio_bytes_per_sample : audio_format_t → Nat
  | .PCM_32_BIT => 4
  | .PCM_8_24_BIT => 4
  | .PCM_16_BIT => 2
  | .PCM_8_BIT => 1

/-- Fuel-driven population count over the binary digits of `n`. -/
def popcountAux : Nat → Nat → Nat
  | 0, _ => 0
  | fuel + 1, n => if n = 0 then 0 else n % 2 + popcountAux fuel (n / 2)

/-- Number of set bits of `n` (popcount, as used by audio.h). -/
def popcount (n : Nat) : Nat := popcountAux n n

/-- audio_stream_frame_size (external system/audio.h helper): number of
channels in the mask times the sample size of the reported format. -/
def audio_stream_frame_size (fmt : audio_format_t) (channel_mask : Nat) : Nat :=
  popcount channel_mask * audio_bytes_per_sample fmt

/-- alsa_to_fw_format_id (audio_hw.c lines 139-155). -/
def alsa_to_fw_format_id : pcm_format → audio_format_t
  | .S8 => .PCM_8_BIT
  | .S24_3LE => .PCM_8_24_BIT
  | .S32_LE => .PCM_32_BIT
  | .S24_LE => .PCM_32_BIT
  | .S16_LE => .PCM_16_BIT

/-- default_alsa_out_config (audio_hw.c lines 44-50). -/
def default_alsa_out_config : pcm_config :=
  { channels := 2, rate := 44100, period_size := 1024, period_count := 4,
    format := .S16_LE }

/-- default_alsa_in_config (audio_hw.c lines 59-67). -/
def default_alsa_in_config : pcm_config :=
  { channels := 2, rate := 44100, period_size := 1024, period_count := 4,
    format := .S16_LE, start_threshold := 1, stop_threshold := 1024 * 4 }

/-!
Output stream state machine.  The mutable fields of struct stream_out
that the claims concern: the transport handle (`pcm`, an abstract
numeric handle; `none` models NULL), the standby flag, and the
conversion buffer (modelled by its size and a non-NULL flag, since the
realloc result may be NULL).  The process-wide capability cache
(cached_output_hardware_config together with
output_hardware_config_is_cached) is modelled by `CacheState`.
-/

structure OutState where
  pcm : Option Nat
  standby : Bool
  conversion_buffer : Bool
  conversion_buffer_size : Nat
deriving DecidableEq, Repr

/-- The output capability cache: cached_output_hardware_config plus
output_hardware_config_is_cached (audio_hw.c lines 105-106). -/
structure CacheState where
  config : pcm_config
  cached : Bool
deriving DecidableEq, Repr

/-- out_get_sample_rate (audio_hw.c lines 297-300): reads the shared
cache, regardless of the stream instance. -/
def out_get_sample_rate (cache : pcm_config) : Nat := cache.rate

/-- out_get_channels (audio_hw.c lines 312-318): always the stereo mask. -/
def out_get_channels (_ : OutState) : Nat := AUDIO_CHANNEL_OUT_STEREO

/-- out_get_format (audio_hw.c lines 320-326): always 16-bit PCM. -/
def out_get_format (_ : OutState) : audio_format_t := .PCM_16_BIT

/-- out_get_buffer_size (audio_hw.c lines 307-310): cached period size
times the frame size derived from the reported stream format. -/
def out_get_buffer_size (cache : pcm_config) (out : OutState) : Nat :=
  cache.period_size *
    audio_stream_frame_size (out_get_format out) (out_get_channels out)

/-- out_standby (audio_hw.c lines 333-350).  Result: the new stream
state, paired with whether pcm_close was invoked. -/
def out_standby (out : OutState) : OutState × Bool :=
  if out.standby = false then
    ({ out with pcm := none, standby := true }, true)
  else
    (out, false)

/-- start_output_stream (audio_hw.c lines 484-515).  The transport open
pcm_open(card, device, PCM_OUT, cfg) is abstracted into `pcmOpen cfg`
(`none` models a NULL result), pcm_is_ready into `ready`, and the
success of the conversion-buffer realloc into `reallocOk`.  On the
not-ready path the handle is closed but the field is left assigned, as
in the source.  Returns the error code and the new stream state. -/
def start_output_stream (pcmOpen : pcm_config → Option Nat)
    (ready : Nat → Bool) (reallocOk : Bool) (cache : pcm_config)
    (out : OutState) : Int × OutState :=
  match pcmOpen cache with
  | none => (-ENOMEM, { out with pcm := none })
  | some h =>
    if ready h = false then
      (-ENOMEM, { out with pcm := some h })
    else
      (0, { out with
             pcm := some h,
             conversion_buffer_size := out_get_buffer_size cache out * 3 * 2 / 2,
             conversion_buffer := reallocOk })

/-- Observable outcome of one out_write call: the returned byte count,
the stream state afterwards, the configuration passed to pcm_open if it
was invoked, the usleep duration if one was performed, and the byte
count passed to pcm_write if it was invoked. -/
structure WriteResult where
  ret : Nat
  out : OutState
  openCalled : Option pcm_config
  sleptUs : Option Nat
  pcmWriteBytes : Option Nat
deriving DecidableEq, Repr

/-- The conversion section of out_write (audio_hw.c lines 532-570):
channel expansion when the cached channel count is 4, then bit-depth
widening when the cached format is S24_3LE, then pcm_write when the
final buffer is non-NULL and the final byte count is nonzero.
`bufNonNull` records whether the caller-supplied buffer is non-NULL. -/
def out_write_active (cache : pcm_config) (bufNonNull : Bool)
    (out : OutState) (bytes : Nat) (openCalled : Option pcm_config) :
    WriteResult :=
  let chanConv := cache.channels ≠ 2 ∧ cache.channels = 4
  let n1 := if chanConv then convert_2chan16_to_4chan16_ret (bytes / 2)
            else bytes
  let b1 := if chanConv then out.conversion_buffer else bufNonNull
  let n2 := match cache.format with
            | .S16_LE => n1
            | .S24_3LE => convert_16_to_24_3_ret (n1 / 2)
            | _ => n1
  let b2 := match cache.format with
            | .S16_LE => b1
            | .S24_3LE => out.conversion_buffer
            | _ => b1
  { ret := bytes, out := out, openCalled := openCalled, sleptUs := none,
    pcmWriteBytes := if b2 = true ∧ n2 ≠ 0 then some n2 else none }

/-- out_write (audio_hw.c lines 517-586).  If the stream is in standby,
start_output_stream runs first; on its failure the call returns the full
requested byte count after sleeping for the playback duration of the
dropped bytes.  Otherwise the conversion section runs. -/
def out_write (pcmOpen : pcm_config → Option Nat) (ready : Nat → Bool)
    (reallocOk : Bool) (cache : pcm_config) (bufNonNull : Bool)
    (out : OutState) (bytes : Nat) : WriteResult :=
  if out.standby then
    let r := start_output_stream pcmOpen ready reallocOk cache out
    if r.fst ≠ 0 then
      { ret := bytes, out := r.snd, openCalled := some cache,
        sleptUs := some (bytes * 1000000 /
          audio_stream_frame_size (out_get_format out) (out_get_channels out) /
          out_get_sample_rate cache),
        pcmWriteBytes := none }
    else
      out_write_active cache bufNonNull { r.snd with standby := false } bytes
        (some cache)
  else
    out_write_active cache bufNonNull out bytes none

/-!
Input stream.
-/

/-- The mutable fields of struct stream_in the claims concern. -/
structure stream_in where
  pcm : Option Nat
  standby : Bool
  alsa_pcm_config : pcm_config
  requested_rate : Nat
deriving DecidableEq, Repr

/-- Observable outcome of one in_read call: the returned byte count and
the handle and byte count passed to the transport pcm_read. -/
structure InReadResult where
  ret : Nat
  callHandle : Option Nat
  callBytes : Nat
deriving DecidableEq, Repr

/-- in_read (audio_hw.c lines 929-935): a single pcm_read of the
requested bytes on the stream handle; returns the requested byte count
when the transport error code is zero and zero otherwise.  The transport
pcm_read is abstracted into `pcmRead handle bytes`, returning the error
code. -/
def in_read (pcmRead : Option Nat → Nat → Int) (s : stream_in)
    (bytes : Nat) : InReadResult :=
  let err := pcmRead s.pcm bytes
  { ret := if err = 0 then bytes else 0,
    callHandle := s.pcm,
    callBytes := bytes }

/-- in_standby (audio_hw.c lines 797-801): an explicit stub that changes
nothing. -/
def in_standby (s : stream_in) : stream_in := s

/-- in_set_parameters (audio_hw.c lines 808-842), after the card/device
keys have been parsed into the device fields: when both routing
coordinates are non-negative the resolver runs on the per-stream config.
The stream handle is never touched. -/
def in_set_parameters (in_card in_device : Int)
    (alsa_hw_params : Option pcm_params) (s : stream_in) :
    Int × stream_in :=
  if 0 ≤ in_card ∧ 0 ≤ in_device then
    let r := read_alsa_device_config in_card in_device alsa_hw_params
               s.alsa_pcm_config
    (r.fst, { s with alsa_pcm_config := r.snd })
  else
    (0, s)

/-- adev_open_input_stream (audio_hw.c lines 941-1015): the stream is
calloc-zeroed (handle NULL), put in standby, seeded with
default_alsa_in_config overridden only by a nonzero requested sample
rate; the reported HAL format is derived from the default config format.
Returns the stream together with the reported audio_format_t. -/
def adev_open_input_stream (hal_sample_rate : Nat) :
    stream_in × audio_format_t :=
  let s0 : stream_in :=
    { pcm := none, standby := true,
      alsa_pcm_config := default_alsa_in_config,
      requested_rate := hal_sample_rate }
  let s1 := if hal_sample_rate ≠ 0 then
              { s0 with alsa_pcm_config :=
                  { s0.alsa_pcm_config with rate := hal_sample_rate } }
            else s0
  let fmt := match default_alsa_in_config.format with
             | .S32_LE => audio_format_t.PCM_32_BIT
             | .S8 => audio_format_t.PCM_8_BIT
             | .S24_LE => audio_format_t.PCM_8_24_BIT
             | .S24_3LE => audio_format_t.PCM_8_24_BIT
             | .S16_LE => audio_format_t.PCM_16_BIT
  (s1, fmt)

/-- The input-stream operations of the function table set up by
adev_open_input_stream, with the external inputs each one consumes. -/
inductive InOp where
  | standbyOp
  | setParams (in_card in_device : Int) (alsa_hw_params : Option pcm_params)
  | readOp (pcmRead : Option Nat → Nat → Int) (bytes : Nat)
  | setSampleRate (rate : Nat)
  | setFormat (fmt : audio_format_t)
  | setGain
  | dump
  | getParameters
  | addAudioEffect
  | removeAudioEffect

/-- State effect of each input-stream operation.  in_standby is a stub;
in_read only calls the transport; in_set_sample_rate, in_set_format and
in_set_gain return fixed codes without touching the stream;
in_get_parameters, in_dump and the effect hooks only read. -/
def in_apply (s : stream_in) : InOp → stream_in
  | .standbyOp => in_standby s
  | .setParams c d p => (in_set_parameters c d p s).snd
  | .readOp _ _ => s
  | .setSampleRate _ => s
  | .setFormat _ => s
  | .setGain => s
  | .dump => s
  | .getParameters => s
  | .addAudioEffect => s
  | .removeAudioEffect => s

/-!
Output stream construction and the capability cache.
-/

/-- Reported configuration record (struct audio_config fields used). -/
structure audio_config where
  sample_rate : Nat
  channel_mask : Nat
  format : audio_format_t
deriving DecidableEq, Repr

/-- Outcome of adev_open_output_stream. -/
structure OpenOutputResult where
  err : Int
  cache : CacheState
  config : audio_config
  stream : Option OutState
deriving DecidableEq, Repr

/-- adev_open_output_stream (audio_hw.c lines 610-691).  `allocOk`
models the calloc of the stream record (on failure the function returns
-ENOMEM before touching anything).  When the cache is valid the reported
config is derived from it, clamped to stereo 16-bit; otherwise the cache
config is overwritten with default_alsa_out_config (the validity flag is
not assigned) and the fixed boundary values are reported.  The external
audio_channel_out_mask_from_count is abstracted into
`chanMaskFromCount`. -/
def adev_open_output_stream (chanMaskFromCount : Nat → Nat)
    (allocOk : Bool) (c : CacheState) (cfg : audio_config) :
    OpenOutputResult :=
  if allocOk = false then
    { err := -ENOMEM, cache := c, config := cfg, stream := none }
  else if c.cached then
    let fmt0 := alsa_to_fw_format_id c.config.format
    let fmt := if fmt0 ≠ audio_format_t.PCM_16_BIT then
                 audio_format_t.PCM_16_BIT
               else fmt0
    let mask0 := chanMaskFromCount c.config.channels
    let mask := if mask0 ≠ AUDIO_CHANNEL_OUT_STEREO then
                  AUDIO_CHANNEL_OUT_STEREO
                else mask0
    { err := 0, cache := c,
      config := { sample_rate := c.config.rate, channel_mask := mask,
                  format := fmt },
      stream := some { pcm := none, standby := true,
                       conversion_buffer := false,
                       conversion_buffer_size := 0 } }
  else
    let c2 : CacheState := { config := default_alsa_out_config,
                             cached := c.cached }
    { err := 0, cache := c2,
      config := { sample_rate := out_get_sample_rate c2.config,
                  channel_mask := AUDIO_CHANNEL_OUT_STEREO,
                  format := audio_format_t.PCM_16_BIT },
      stream := some { pcm := none, standby := true,
                       conversion_buffer := false,
                       conversion_buffer_size := 0 } }

/-!
Theorems.
-/

/-- Loop invariant for convert_16_to_24_3: provided every store of
iteration `t` avoids the source bytes that later iterations still have
to read (`H1`) and the first store of an iteration does not clobber the
source byte read later in the same iteration (`H2`), running the loop
from sample `t - 1` down to `0` on a memory whose low source bytes are
intact and whose output tail is already converted converts the whole
output region. -/
theorem conv16to24Run_correct (src dst n : Nat) (inb : Nat → Nat)
    (H1 : ∀ t i j, t < n → i < 3 → j < 2 * t → dst + (3 * t + i) ≠ src + j)
    (H2 : ∀ t, t < n → dst + (3 * t + 2) ≠ src + 2 * t) :
    ∀ t, t ≤ n → ∀ m : Nat → Nat,
      (∀ j, j < 2 * t → m (src + j) = inb j) →
      (∀ j, 3 * t ≤ j → j < 3 * n → m (dst + j) = outByte24 inb j) →
      ∀ j, j < 3 * n → conv16to24Run src dst t m (dst + j) = outByte24 inb j := by
  intro t
  induction t with
  | zero =>
    intro _ m _ hout j hj
    exact hout j (Nat.zero_le j) hj
  | succ t ih =>
    intro ht m hin hout j hj
    have htn : t < n := ht
    have ht2 : t ≤ n := Nat.le_of_lt htn
    show conv16to24Run src dst t (conv16to24Step src dst m t) (dst + j) =
      outByte24 inb j
    refine ih ht2 (conv16to24Step src dst m t) ?_ ?_ j hj
    · intro j2 hj2
      have n0 := H1 t 0 j2 htn (by omega) hj2
      have n1 := H1 t 1 j2 htn (by omega) hj2
      have n2 := H1 t 2 j2 htn (by omega) hj2
      simp only [conv16to24Step, upd]
      rw [if_neg (by omega), if_neg (by omega), if_neg (by omega)]
      exact hin j2 (by omega)
    · intro j2 h32 h3n
      have hv2 := H2 t htn
      have hcase : j2 = 3 * t ∨ j2 = 3 * t + 1 ∨ j2 = 3 * t + 2 ∨
          3 * (t + 1) ≤ j2 := by omega
      rcases hcase with hc | hc | hc | hc
      · subst hc
        simp only [conv16to24Step, upd]
        rw [if_pos trivial]
        simp only [outByte24]
        rw [if_pos (by omega)]
      · subst hc
        simp only [conv16to24Step, upd]
        rw [if_neg (by omega), if_pos trivial, if_neg (by omega),
            hin (2 * t) (by omega)]
        simp only [outByte24]
        rw [if_neg (by omega)]
        congr 1
        omega
      · subst hc
        simp only [conv16to24Step, upd]
        rw [if_neg (by omega), if_neg (by omega), if_pos trivial,
            hin (2 * t + 1) (by omega)]
        simp only [outByte24]
        rw [if_neg (by omega)]
        congr 1
        omega
      · simp only [conv16to24Step, upd]
        rw [if_neg (by omega), if_neg (by omega), if_neg (by omega)]
        exact hout j2 (by omega) h3n

/-- The three bytes of output group `s` under outByte24. -/
theorem outByte24_group (inb : Nat → Nat) (s : Nat) :
    outByte24 inb (3 * s) = 0 ∧ outByte24 inb (3 * s + 1) = inb (2 * s) ∧
    outByte24 inb (3 * s + 2) = inb (2 * s + 1) := by
  refine ⟨?_, ?_, ?_⟩ <;> simp only [outByte24]
  · rw [if_pos (by omega)]
  · rw [if_neg (by omega)]
    congr 1
    omega
  · rw [if_neg (by omega)]
    congr 1
    omega

/-- Claim C1: convert_16_to_24_3 returns 3 bytes per input sample
(3 * n, which is the input byte count times 3/2); every 3-byte output
group has a zero low byte and carries the two bytes of the original
sample; and because the loop runs back to front, an in-place run
(destination buffer equal to the source buffer) produces the same
output bytes as a run on disjoint buffers. -/
theorem convert_16_to_24_3_spec
    (n src dst b : Nat) (inb m mp : Nat → Nat)
    (hm : ∀ j, j < 2 * n → m (src + j) = inb j)
    (hdisj : src + 2 * n ≤ dst ∨ dst + 3 * n ≤ src)
    (hmp : ∀ j, j < 2 * n → mp (b + j) = inb j) :
    (convert_16_to_24_3 src dst n m).fst = 3 * n ∧
    (∀ s, s < n →
      (convert_16_to_24_3 src dst n m).snd (dst + 3 * s) = 0 ∧
      (convert_16_to_24_3 src dst n m).snd (dst + (3 * s + 1)) = inb (2 * s) ∧
      (convert_16_to_24_3 src dst n m).snd (dst + (3 * s + 2)) = inb (2 * s + 1)) ∧
    (∀ s, s < n →
      (convert_16_to_24_3 b b n mp).snd (b + 3 * s) = 0 ∧
      (convert_16_to_24_3 b b n mp).snd (b + (3 * s + 1)) = inb (2 * s) ∧
      (convert_16_to_24_3 b b n mp).snd (b + (3 * s + 2)) = inb (2 * s + 1)) ∧
    (∀ j, j < 3 * n →
      (convert_16_to_24_3 b b n mp).snd (b + j) =
        (convert_16_to_24_3 src dst n m).snd (dst + j)) := by
  have key1 : ∀ j, j < 3 * n →
      conv16to24Run src dst n m (dst + j) = outByte24 inb j := by
    refine conv16to24Run_correct src dst n inb ?_ ?_ n le_rfl m hm ?_
    · intro t i j ht hi hj
      rcases hdisj with hd | hd <;> omega
    · intro t ht
      rcases hdisj with hd | hd <;> omega
    · intro j h1 h2
      exact absurd h2 (by omega)
  have key2 : ∀ j, j < 3 * n →
      conv16to24Run b b n mp (b + j) = outByte24 inb j := by
    refine conv16to24Run_correct b b n inb ?_ ?_ n le_rfl mp hmp ?_
    · intro t i j ht hi hj
      omega
    · intro t ht
      omega
    · intro j h1 h2
      exact absurd h2 (by omega)
  refine ⟨?_, ?_, ?_, ?_⟩
  · show 3 * (n * 2) / 2 = 3 * n
    omega
  · intro s hs
    obtain ⟨g0, g1, g2⟩ := outByte24_group inb s
    exact ⟨(key1 (3 * s) (by omega)).trans g0,
           (key1 (3 * s + 1) (by omega)).trans g1,
           (key1 (3 * s + 2) (by omega)).trans g2⟩
  · intro s hs
    obtain ⟨g0, g1, g2⟩ := outByte24_group inb s
    exact ⟨(key2 (3 * s) (by omega)).trans g0,
           (key2 (3 * s + 1) (by omega)).trans g1,
           (key2 (3 * s + 2) (by omega)).trans g2⟩
  · intro j hj
    exact (key2 j hj).trans (key1 j hj).symm

/-- Concrete run of convert_16_to_24_3_spec on the two samples
(0x140A, 0x281E) laid out at byte 0, with a disjoint destination at
byte 100 and an in-place destination at byte 0. -/
theorem convert_16_to_24_3_spec_witness :
    ((0 : Nat) + 2 * 2 ≤ 100 ∨ 100 + 3 * 2 ≤ 0) ∧
    (convert_16_to_24_3 0 100 2 (fun j => [10, 20, 30, 40].getD j 0)).fst = 3 * 2 ∧
    (convert_16_to_24_3 0 100 2 (fun j => [10, 20, 30, 40].getD j 0)).snd
        (100 + (3 * 1 + 1)) = (fun j => [10, 20, 30, 40].getD j 0) (2 * 1) ∧
    (convert_16_to_24_3 0 0 2 (fun j => [10, 20, 30, 40].getD j 0)).snd
        (0 + 3 * 1) = 0 := by
  have h := convert_16_to_24_3_spec 2 0 100 0
    (fun j => [10, 20, 30, 40].getD j 0)
    (fun j => [10, 20, 30, 40].getD j 0)
    (fun j => [10, 20, 30, 40].getD j 0)
    (by decide) (Or.inl (by omega)) (by decide)
  exact ⟨Or.inl (by omega), h.1, (h.2.1 1 (by omega)).2.1,
         (h.2.2.1 1 (by omega)).1⟩

/-- Loop invariant for convert_2chan16_to_4chan16, in the same style as
conv16to24Run_correct: `H1` keeps the stores of iteration `t` away from
the source samples later iterations read, `H2` keeps the earlier stores
of iteration `t` away from the two source samples read within the same
iteration. -/
theorem conv2to4Run_correct (src dst f : Nat) (inb : Nat → Nat)
    (H1 : ∀ t i j, t < f → i < 4 → j < 2 * t → dst + (4 * t + i) ≠ src + j)
    (H2 : ∀ t, t < f →
      (dst + (4 * t + 3) ≠ src + (2 * t + 1)) ∧
      (dst + (4 * t + 2) ≠ src + (2 * t + 1)) ∧
      (dst + (4 * t + 3) ≠ src + 2 * t) ∧
      (dst + (4 * t + 2) ≠ src + 2 * t) ∧
      (dst + (4 * t + 1) ≠ src + 2 * t)) :
    ∀ t, t ≤ f → ∀ m : Nat → Nat,
      (∀ j, j < 2 * t → m (src + j) = inb j) →
      (∀ j, 4 * t ≤ j → j < 4 * f → m (dst + j) = outSample4 inb j) →
      ∀ j, j < 4 * f → conv2to4Run src dst t m (dst + j) = outSample4 inb j := by
  intro t
  induction t with
  | zero =>
    intro _ m _ hout j hj
    exact hout j (Nat.zero_le j) hj
  | succ t ih =>
    intro ht m hin hout j hj
    have htn : t < f := ht
    have ht2 : t ≤ f := Nat.le_of_lt htn
    obtain ⟨w1, w2, w3, w4, w5⟩ := H2 t htn
    show conv2to4Run src dst t (conv2to4Step src dst m t) (dst + j) =
      outSample4 inb j
    refine ih ht2 (conv2to4Step src dst m t) ?_ ?_ j hj
    · intro j2 hj2
      have n0 := H1 t 0 j2 htn (by omega) hj2
      have n1 := H1 t 1 j2 htn (by omega) hj2
      have n2 := H1 t 2 j2 htn (by omega) hj2
      have n3 := H1 t 3 j2 htn (by omega) hj2
      simp only [conv2to4Step, upd]
      rw [if_neg (by omega), if_neg (by omega), if_neg (by omega),
          if_neg (by omega)]
      exact hin j2 (by omega)
    · intro j2 h42 h4f
      have hcase : j2 = 4 * t ∨ j2 = 4 * t + 1 ∨ j2 = 4 * t + 2 ∨
          j2 = 4 * t + 3 ∨ 4 * (t + 1) ≤ j2 := by omega
      rcases hcase with hc | hc | hc | hc | hc
      · subst hc
        simp only [conv2to4Step, upd]
        rw [if_pos trivial, if_neg (by omega), if_neg (by omega),
            if_neg (by omega), hin (2 * t) (by omega)]
        simp only [outSample4]
        rw [if_pos (by omega)]
        congr 1
        omega
      · subst hc
        simp only [conv2to4Step, upd]
        rw [if_neg (by omega), if_pos trivial, if_neg (by omega),
            if_neg (by omega), hin (2 * t + 1) (by omega)]
        simp only [outSample4]
        rw [if_pos (by omega)]
        congr 1
        omega
      · subst hc
        simp only [conv2to4Step, upd]
        rw [if_neg (by omega), if_neg (by omega), if_pos trivial]
        simp only [outSample4]
        rw [if_neg (by omega)]
      · subst hc
        simp only [conv2to4Step, upd]
        rw [if_neg (by omega), if_neg (by omega), if_neg (by omega),
            if_pos trivial]
        simp only [outSample4]
        rw [if_neg (by omega)]
      · simp only [conv2to4Step, upd]
        rw [if_neg (by omega), if_neg (by omega), if_neg (by omega),
            if_neg (by omega)]
        exact hout j2 (by omega) h4f

/-- The four samples of output frame `t` under outSample4. -/
theorem outSample4_frame (inb : Nat → Nat) (t : Nat) :
    outSample4 inb (4 * t) = inb (2 * t) ∧
    outSample4 inb (4 * t + 1) = inb (2 * t + 1) ∧
    outSample4 inb (4 * t + 2) = 0 ∧
    outSample4 inb (4 * t + 3) = 0 := by
  refine ⟨?_, ?_, ?_, ?_⟩ <;> simp only [outSample4]
  · rw [if_pos (by omega)]
    congr 1
    omega
  · rw [if_pos (by omega)]
    congr 1
    omega
  · rw [if_neg (by omega)]
  · rw [if_neg (by omega)]

/-- Claim C2: for an even input sample count, convert_2chan16_to_4chan16
returns twice the input byte count; every output frame carries the two
input samples in channels 1 and 2 and zero in channels 3 and 4; and the
in-place run (destination equal to source) produces the same output
samples as a run on disjoint buffers. -/
theorem convert_2chan16_to_4chan16_spec
    (n src dst b : Nat) (inb m mp : Nat → Nat)
    (hev : n % 2 = 0)
    (hm : ∀ j, j < n → m (src + j) = inb j)
    (hdisj : src + n ≤ dst ∨ dst + 2 * n ≤ src)
    (hmp : ∀ j, j < n → mp (b + j) = inb j) :
    (convert_2chan16_to_4chan16 src dst n m).fst = 2 * (n * 2) ∧
    (∀ t, t < n / 2 →
      (convert_2chan16_to_4chan16 src dst n m).snd (dst + 4 * t) = inb (2 * t) ∧
      (convert_2chan16_to_4chan16 src dst n m).snd (dst + (4 * t + 1)) =
        inb (2 * t + 1) ∧
      (convert_2chan16_to_4chan16 src dst n m).snd (dst + (4 * t + 2)) = 0 ∧
      (convert_2chan16_to_4chan16 src dst n m).snd (dst + (4 * t + 3)) = 0) ∧
    (∀ t, t < n / 2 →
      (convert_2chan16_to_4chan16 b b n mp).snd (b + 4 * t) = inb (2 * t) ∧
      (convert_2chan16_to_4chan16 b b n mp).snd (b + (4 * t + 1)) =
        inb (2 * t + 1) ∧
      (convert_2chan16_to_4chan16 b b n mp).snd (b + (4 * t + 2)) = 0 ∧
      (convert_2chan16_to_4chan16 b b n mp).snd (b + (4 * t + 3)) = 0) ∧
    (∀ j, j < 2 * n →
      (convert_2chan16_to_4chan16 b b n mp).snd (b + j) =
        (convert_2chan16_to_4chan16 src dst n m).snd (dst + j)) := by
  have hmem : ∀ j, j < 2 * (n / 2) → m (src + j) = inb j := by
    intro j hj
    exact hm j (by omega)
  have hmemp : ∀ j, j < 2 * (n / 2) → mp (b + j) = inb j := by
    intro j hj
    exact hmp j (by omega)
  have key1 : ∀ j, j < 4 * (n / 2) →
      conv2to4Run src dst (n / 2) m (dst + j) = outSample4 inb j := by
    refine conv2to4Run_correct src dst (n / 2) inb ?_ ?_ (n / 2) le_rfl m
      hmem ?_
    · intro t i j ht hi hj
      rcases hdisj with hd | hd <;> omega
    · intro t ht
      rcases hdisj with hd | hd <;>
        exact ⟨by omega, by omega, by omega, by omega, by omega⟩
    · intro j h1 h2
      exact absurd h2 (by omega)
  have key2 : ∀ j, j < 4 * (n / 2) →
      conv2to4Run b b (n / 2) mp (b + j) = outSample4 inb j := by
    refine conv2to4Run_correct b b (n / 2) inb ?_ ?_ (n / 2) le_rfl mp
      hmemp ?_
    · intro t i j ht hi hj
      omega
    · intro t ht
      exact ⟨by omega, by omega, by omega, by omega, by omega⟩
    · intro j h1 h2
      exact absurd h2 (by omega)
  refine ⟨?_, ?_, ?_, ?_⟩
  · show n * 2 * 2 = 2 * (n * 2)
    omega
  · intro t htf
    obtain ⟨g0, g1, g2, g3⟩ := outSample4_frame inb t
    exact ⟨(key1 (4 * t) (by omega)).trans g0,
           (key1 (4 * t + 1) (by omega)).trans g1,
           (key1 (4 * t + 2) (by omega)).trans g2,
           (key1 (4 * t + 3) (by omega)).trans g3⟩
  · intro t htf
    obtain ⟨g0, g1, g2, g3⟩ := outSample4_frame inb t
    exact ⟨(key2 (4 * t) (by omega)).trans g0,
           (key2 (4 * t + 1) (by omega)).trans g1,
           (key2 (4 * t + 2) (by omega)).trans g2,
           (key2 (4 * t + 3) (by omega)).trans g3⟩
  · intro j hj
    exact (key2 j (by omega)).trans (key1 j (by omega)).symm

/-- Concrete run of convert_2chan16_to_4chan16_spec on one stereo frame
of two samples at sample address 0, with a disjoint destination at
sample address 50 and an in-place destination at sample address 0. -/
theorem convert_2chan16_to_4chan16_spec_witness :
    (2 : Nat) % 2 = 0 ∧
    (convert_2chan16_to_4chan16 0 50 2 (fun j => [7, 9].getD j 0)).fst =
      2 * (2 * 2) ∧
    (convert_2chan16_to_4chan16 0 50 2 (fun j => [7, 9].getD j 0)).snd
      (50 + (4 * 0 + 2)) = 0 ∧
    (convert_2chan16_to_4chan16 0 0 2 (fun j => [7, 9].getD j 0)).snd
      (0 + (4 * 0 + 1)) = (fun j => [7, 9].getD j 0) (2 * 0 + 1) := by
  have h := convert_2chan16_to_4chan16_spec 2 0 50 0
    (fun j => [7, 9].getD j 0) (fun j => [7, 9].getD j 0)
    (fun j => [7, 9].getD j 0)
    (by decide) (by decide) (Or.inl (by omega)) (by decide)
  exact ⟨by decide, h.1, (h.2.1 0 (by omega)).2.2.1,
         (h.2.2.1 0 (by omega)).2.1⟩

/-- Claim C3: read_alsa_device_config deterministically takes the
reported minimum channel count and rate, the maximum of the periods
parameter for period_size, the minimum of the periods parameter for
period_count, and the first pcm_format in enumeration order from S16_LE
whose bit width equals the reported minimum sample bit width (16-bit
default when none matches); on the ranges rate 8000-48000, channels 1-4,
periods 2-8, bits 16-24 this yields rate 8000, 1 channel, period_size 8,
period_count 2 and the 16-bit format. -/
theorem read_alsa_device_config_resolution
    (card device : Int) (hc : 0 ≤ card) (hd : 0 ≤ device)
    (p : pcm_params) (config : pcm_config) :
    read_alsa_device_config card device (some p) config =
      (0, { config with
             channels := p.channels_min,
             rate := p.rate_min,
             period_size := p.periods_max,
             period_count := p.periods_min,
             format := bits_to_alsa_format p.sample_bits_min .S16_LE }) ∧
    bits_to_alsa_format 16 .S16_LE = .S16_LE ∧
    bits_to_alsa_format 24 .S16_LE = .S24_3LE ∧
    bits_to_alsa_format 32 .S16_LE = .S32_LE ∧
    bits_to_alsa_format 8 .S16_LE = .S8 ∧
    (∀ bits, bits ≠ 8 → bits ≠ 16 → bits ≠ 24 → bits ≠ 32 →
      bits_to_alsa_format bits .S16_LE = .S16_LE) ∧
    read_alsa_device_config card device
        (some { rate_min := 8000, rate_max := 48000, channels_min := 1,
                channels_max := 4, periods_min := 2, periods_max := 8,
                sample_bits_min := 16, sample_bits_max := 24 }) config =
      (0, { config with
             channels := 1
             rate := 8000
             period_size := 8
             period_count := 2
             format := .S16_LE }) := by
  have hneg : ¬(card < 0 ∨ device < 0) := by omega
  refine ⟨?_, by decide, by decide, by decide, by decide, ?_, ?_⟩
  · simp only [read_alsa_device_config]
    rw [if_neg hneg]
  · intro bits h8 h16 h24 h32
    simp [bits_to_alsa_format, formatScanOrder, List.find?, pcm_format_to_bits,
          Ne.symm h8, Ne.symm h16, Ne.symm h24, Ne.symm h32]
  · simp only [read_alsa_device_config]
    rw [if_neg hneg]
    have hfmt : bits_to_alsa_format 16 .S16_LE = .S16_LE := by decide
    simp [hfmt]

/-- Concrete run of read_alsa_device_config_resolution at card 0,
device 0 on the capability ranges of the claim. -/
theorem read_alsa_device_config_resolution_witness :
    (0 : Int) ≤ 0 ∧
    read_alsa_device_config 0 0
        (some { rate_min := 8000, rate_max := 48000, channels_min := 1,
                channels_max := 4, periods_min := 2, periods_max := 8,
                sample_bits_min := 16, sample_bits_max := 24 })
        default_alsa_out_config =
      (0, { default_alsa_out_config with
             channels := 1
             rate := 8000
             period_size := 8
             period_count := 2
             format := .S16_LE }) :=
  ⟨le_refl 0,
   (read_alsa_device_config_resolution 0 0 (by decide) (by decide)
      { rate_min := 8000, rate_max := 48000, channels_min := 1,
        channels_max := 4, periods_min := 2, periods_max := 8,
        sample_bits_min := 16, sample_bits_max := 24 }
      default_alsa_out_config).2.2.2.2.2.2⟩

/-- Claim C7 counterexample: the no-capability-set failure of
read_alsa_device_config is not a distinct error code: at card 0,
device 0 with no capability set it returns the same -EINVAL that the
negative-coordinate path returns. -/
theorem read_alsa_device_config_no_distinct_error :
    (read_alsa_device_config 0 0 none default_alsa_out_config).fst =
      (read_alsa_device_config (-1) 0
        (some { rate_min := 8000, rate_max := 48000, channels_min := 1,
                channels_max := 4, periods_min := 2, periods_max := 8,
                sample_bits_min := 16, sample_bits_max := 24 })
        default_alsa_out_config).fst ∧
    (read_alsa_device_config 0 0 none default_alsa_out_config).fst =
      -EINVAL := by
  decide

/-- Claim C7 (amended): read_alsa_device_config fails with -EINVAL when
either coordinate is negative and with the same -EINVAL code (not a
distinct one) when the transport reports no capability set; on both
failure paths the config record is returned unmodified. -/
theorem read_alsa_device_config_failure_paths
    (card device : Int) (alsa_hw_params : Option pcm_params)
    (config : pcm_config) :
    (card < 0 ∨ device < 0 →
      read_alsa_device_config card device alsa_hw_params config =
        (-EINVAL, config)) ∧
    (0 ≤ card → 0 ≤ device →
      read_alsa_device_config card device none config =
        (-EINVAL, config)) := by
  constructor
  · intro h
    simp only [read_alsa_device_config]
    rw [if_pos h]
  · intro hc hd
    simp only [read_alsa_device_config]
    rw [if_neg (by omega)]

/-- Concrete runs of both failure paths of
read_alsa_device_config_failure_paths. -/
theorem read_alsa_device_config_failure_paths_witness :
    ((-1 : Int) < 0 ∨ (0 : Int) < 0) ∧
    read_alsa_device_config (-1) 0 none default_alsa_out_config =
      (-EINVAL, default_alsa_out_config) ∧
    read_alsa_device_config 0 0 none default_alsa_out_config =
      (-EINVAL, default_alsa_out_config) :=
  ⟨Or.inl (by decide),
   (read_alsa_device_config_failure_paths (-1) 0 none
      default_alsa_out_config).1 (Or.inl (by decide)),
   (read_alsa_device_config_failure_paths 0 0 none
      default_alsa_out_config).2 (by decide) (by decide)⟩

/-- Claim C4: out_write reports the full requested byte count on every
path; when the stream is in standby and the transport open fails (NULL
handle or a handle that is not ready), the stream stays in standby and
the call sleeps for the playback duration of the dropped bytes,
bytes * 1000000 / frame_size / sample_rate microseconds. -/
theorem out_write_error_policy
    (pcmOpen : pcm_config → Option Nat) (ready : Nat → Bool)
    (reallocOk bufNonNull : Bool) (cache : pcm_config) (out : OutState)
    (bytes : Nat) :
    (out_write pcmOpen ready reallocOk cache bufNonNull out bytes).ret =
      bytes ∧
    (out.standby = true →
      (∀ h, pcmOpen cache = some h → ready h = false) →
      (out_write pcmOpen ready reallocOk cache bufNonNull out
          bytes).out.standby = true ∧
      (out_write pcmOpen ready reallocOk cache bufNonNull out bytes).sleptUs =
        some (bytes * 1000000 /
          audio_stream_frame_size (out_get_format out) (out_get_channels out) /
          out_get_sample_rate cache)) := by
  constructor
  · by_cases hsb : out.standby = true
    · rcases hop : pcmOpen cache with _ | h
      · simp [out_write, hsb, start_output_stream, hop, ENOMEM]
      · cases hr : ready h with
        | false => simp [out_write, hsb, start_output_stream, hop, hr, ENOMEM]
        | true =>
          simp [out_write, hsb, start_output_stream, hop, hr, out_write_active]
    · simp [out_write, hsb, out_write_active]
  · intro hsb hfail
    rcases hop : pcmOpen cache with _ | h
    · constructor <;> simp [out_write, hsb, start_output_stream, hop, ENOMEM]
    · have hr := hfail h hop
      constructor <;>
        simp [out_write, hsb, start_output_stream, hop, hr, ENOMEM]

/-- Concrete run of out_write_error_policy: a standby stream whose
transport open returns NULL still reports all 4096 bytes consumed,
stays in standby, and sleeps. -/
theorem out_write_error_policy_witness :
    ((⟨none, true, false, 0⟩ : OutState).standby = true) ∧
    (out_write (fun _ => none) (fun _ => true) true
      default_alsa_out_config true ⟨none, true, false, 0⟩ 4096).ret = 4096 ∧
    (out_write (fun _ => none) (fun _ => true) true
      default_alsa_out_config true ⟨none, true, false, 0⟩
      4096).out.standby = true ∧
    (out_write (fun _ => none) (fun _ => true) true
      default_alsa_out_config true ⟨none, true, false, 0⟩ 4096).sleptUs =
      some (4096 * 1000000 /
        audio_stream_frame_size (out_get_format ⟨none, true, false, 0⟩)
          (out_get_channels ⟨none, true, false, 0⟩) /
        out_get_sample_rate default_alsa_out_config) := by
  have H := out_write_error_policy (fun _ => none) (fun _ => true) true true
    default_alsa_out_config ⟨none, true, false, 0⟩ 4096
  exact ⟨rfl, H.1, (H.2 rfl (fun h hh => nomatch hh)).1,
         (H.2 rfl (fun h hh => nomatch hh)).2⟩

/-- Claim C5: with a cached 4-channel S24_3LE device configuration, an
active-stream write of a positive multiple of 4 bytes of stereo 16-bit
data hands exactly 3 times that byte count to the transport write
(channel expansion to 2x, then packed 24-bit widening to 3x of that),
while the stream keeps reporting the stereo mask, 16-bit PCM, and the
cached sample rate. -/
theorem out_write_conversion_pipeline
    (pcmOpen : pcm_config → Option Nat) (ready : Nat → Bool)
    (reallocOk bufNonNull : Bool) (cache : pcm_config) (out : OutState)
    (bytes : Nat)
    (hch : cache.channels = 4) (hfmt : cache.format = pcm_format.S24_3LE)
    (hact : out.standby = false) (hbuf : out.conversion_buffer = true)
    (hq : 4 ∣ bytes) (hpos : 0 < bytes) :
    (out_write pcmOpen ready reallocOk cache bufNonNull out
        bytes).pcmWriteBytes = some (3 * bytes) ∧
    (out_write pcmOpen ready reallocOk cache bufNonNull out bytes).ret =
      bytes ∧
    out_get_channels out = AUDIO_CHANNEL_OUT_STEREO ∧
    out_get_format out = audio_format_t.PCM_16_BIT ∧
    out_get_sample_rate cache = cache.rate := by
  have e1 : convert_2chan16_to_4chan16_ret (bytes / 2) = 2 * bytes := by
    unfold convert_2chan16_to_4chan16_ret
    omega
  have e2 : convert_16_to_24_3_ret bytes = 3 * bytes := by
    unfold convert_16_to_24_3_ret
    omega
  have hsb : ¬(out.standby = true) := by simp [hact]
  refine ⟨?_, ?_, rfl, rfl, rfl⟩
  · simp [out_write, hsb, out_write_active, hch, hfmt, hbuf, e1, e2]
    omega
  · simp [out_write, hsb, out_write_active]

/-- Concrete run of out_write_conversion_pipeline: 8 bytes of stereo
16-bit input to an active stream on a 4-channel S24_3LE device reach
the transport as 24 bytes. -/
theorem out_write_conversion_pipeline_witness :
    (4 ∣ 8) ∧
    (out_write (fun _ => some 5) (fun _ => true) true
      ⟨4, 48000, 1024, 2, .S24_3LE, 0, 0, 0⟩ true ⟨some 5, false, true, 100⟩
      8).pcmWriteBytes = some (3 * 8) :=
  ⟨⟨2, rfl⟩,
   (out_write_conversion_pipeline (fun _ => some 5) (fun _ => true) true true
      ⟨4, 48000, 1024, 2, .S24_3LE, 0, 0, 0⟩ ⟨some 5, false, true, 100⟩ 8
      rfl rfl rfl rfl (by decide) (by decide)).1⟩

/-- Claim C6: a write on a standby stream whose transport open succeeds
calls pcm_open with the cached configuration, leaves the stream active
with the new handle and a freshly sized conversion buffer; a write on an
already-active stream calls neither pcm_open nor realloc and leaves the
state untouched; and out_standby closes the transport and re-enters
standby when active, does nothing when already in standby, and is
idempotent. -/
theorem out_stream_lifecycle
    (pcmOpen : pcm_config → Option Nat) (ready : Nat → Bool)
    (reallocOk bufNonNull : Bool) (cache : pcm_config) (out : OutState)
    (bytes h : Nat)
    (hsb : out.standby = true) (hopen : pcmOpen cache = some h)
    (hready : ready h = true) :
    (out_write pcmOpen ready reallocOk cache bufNonNull out
        bytes).openCalled = some cache ∧
    (out_write pcmOpen ready reallocOk cache bufNonNull out
        bytes).out.standby = false ∧
    (out_write pcmOpen ready reallocOk cache bufNonNull out bytes).out.pcm =
      some h ∧
    (out_write pcmOpen ready reallocOk cache bufNonNull out
        bytes).out.conversion_buffer = reallocOk ∧
    (out_write pcmOpen ready reallocOk cache bufNonNull out
        bytes).out.conversion_buffer_size =
      out_get_buffer_size cache out * 3 * 2 / 2 ∧
    (∀ (out2 : OutState) (bytes2 : Nat), out2.standby = false →
      (out_write pcmOpen ready reallocOk cache bufNonNull out2
          bytes2).openCalled = none ∧
      (out_write pcmOpen ready reallocOk cache bufNonNull out2 bytes2).out =
        out2) ∧
    (∀ st : OutState, st.standby = false →
      out_standby st = ({ st with pcm := none, standby := true }, true)) ∧
    (∀ st : OutState, st.standby = true → out_standby st = (st, false)) ∧
    (∀ st : OutState,
      (out_standby (out_standby st).fst).fst = (out_standby st).fst) := by
  refine ⟨?_, ?_, ?_, ?_, ?_, ?_, ?_, ?_, ?_⟩
  · simp [out_write, hsb, start_output_stream, hopen, hready, out_write_active]
  · simp [out_write, hsb, start_output_stream, hopen, hready, out_write_active]
  · simp [out_write, hsb, start_output_stream, hopen, hready, out_write_active]
  · simp [out_write, hsb, start_output_stream, hopen, hready, out_write_active]
  · simp [out_write, hsb, start_output_stream, hopen, hready, out_write_active]
  · intro out2 bytes2 h2
    have h2b : ¬(out2.standby = true) := by simp [h2]
    constructor <;> simp [out_write, h2b, out_write_active]
  · intro st h2
    simp [out_standby, h2]
  · intro st h2
    simp [out_standby, h2]
  · intro st
    cases h2 : st.standby <;> simp [out_standby, h2]

/-- Concrete run of out_stream_lifecycle: a standby stream activated by
one write, a second write on an active stream changing nothing, and
out_standby idempotence on a concrete active state. -/
theorem out_stream_lifecycle_witness :
    ((⟨none, true, false, 0⟩ : OutState).standby = true) ∧
    (out_write (fun _ => some 7) (fun _ => true) true
      default_alsa_out_config true ⟨none, true, false, 0⟩
      256).out.standby = false ∧
    (out_write (fun _ => some 7) (fun _ => true) true
      default_alsa_out_config true ⟨none, true, false, 0⟩ 256).out.pcm =
      some 7 ∧
    (out_write (fun _ => some 7) (fun _ => true) true
      default_alsa_out_config true ⟨some 7, false, true, 100⟩ 256).out =
      ⟨some 7, false, true, 100⟩ ∧
    (out_standby (out_standby ⟨some 7, false, true, 100⟩).fst).fst =
      (out_standby (⟨some 7, false, true, 100⟩ : OutState)).fst := by
  have H := out_stream_lifecycle (fun _ => some 7) (fun _ => true) true true
    default_alsa_out_config ⟨none, true, false, 0⟩ 256 7 rfl rfl rfl
  exact ⟨rfl, H.2.1, H.2.2.1,
         (H.2.2.2.2.2.1 ⟨some 7, false, true, 100⟩ 256 rfl).2,
         H.2.2.2.2.2.2.2.2 ⟨some 7, false, true, 100⟩⟩

/-- Claim C8: in_read delegates a single transport read with the
callers byte count on the stream handle, returns the requested byte
count when the transport error code is zero and zero bytes when it is
nonzero. -/
theorem in_read_delegation
    (pcmRead : Option Nat → Nat → Int) (s : stream_in) (bytes : Nat) :
    (in_read pcmRead s bytes).callHandle = s.pcm ∧
    (in_read pcmRead s bytes).callBytes = bytes ∧
    (pcmRead s.pcm bytes = 0 → (in_read pcmRead s bytes).ret = bytes) ∧
    (pcmRead s.pcm bytes ≠ 0 → (in_read pcmRead s bytes).ret = 0) := by
  refine ⟨rfl, rfl, ?_, ?_⟩
  · intro h
    simp [in_read, h]
  · intro h
    simp [in_read, h]

/-- Concrete runs of in_read_delegation: a zero error code returns the
full 16 bytes, a nonzero one returns 0. -/
theorem in_read_delegation_witness :
    ((fun (_ : Option Nat) (_ : Nat) => (0 : Int)) none 16 = 0) ∧
    (in_read (fun _ _ => 0) ⟨none, true, default_alsa_in_config, 44100⟩
      16).ret = 16 ∧
    (in_read (fun _ _ => 1) ⟨none, true, default_alsa_in_config, 44100⟩
      16).ret = 0 :=
  ⟨rfl,
   (in_read_delegation (fun _ _ => 0)
      ⟨none, true, default_alsa_in_config, 44100⟩ 16).2.2.1 rfl,
   (in_read_delegation (fun _ _ => 1)
      ⟨none, true, default_alsa_in_config, 44100⟩ 16).2.2.2 (by decide)⟩

/-- No input-stream operation changes the transport handle field. -/
theorem in_apply_preserves_pcm (s : stream_in) (op : InOp) :
    (in_apply s op).pcm = s.pcm := by
  cases op with
  | setParams c d p =>
    simp only [in_apply, in_set_parameters]
    split
    · rfl
    · rfl
  | standbyOp => rfl
  | readOp r b => rfl
  | setSampleRate r => rfl
  | setFormat f => rfl
  | setGain => rfl
  | dump => rfl
  | getParameters => rfl
  | addAudioEffect => rfl
  | removeAudioEffect => rfl

/-- Folding any sequence of input-stream operations preserves the
transport handle field. -/
theorem in_apply_foldl_pcm (ops : List InOp) :
    ∀ s : stream_in, (ops.foldl in_apply s).pcm = s.pcm := by
  induction ops with
  | nil =>
    intro s
    rfl
  | cons op rest ih =>
    intro s
    show (rest.foldl in_apply (in_apply s op)).pcm = s.pcm
    rw [ih (in_apply s op), in_apply_preserves_pcm]

/-- Claim C9: an input stream is created with a NULL transport handle,
no input-stream operation ever assigns it, so the handle is NULL in
every reachable state and every in_read call passes a NULL handle to the
transport read. -/
theorem input_stream_handle_always_null (rate : Nat) (ops : List InOp)
    (pcmRead : Option Nat → Nat → Int) (bytes : Nat) :
    (adev_open_input_stream rate).fst.pcm = none ∧
    (ops.foldl in_apply (adev_open_input_stream rate).fst).pcm = none ∧
    (in_read pcmRead (ops.foldl in_apply (adev_open_input_stream rate).fst)
        bytes).callHandle = none := by
  have h0 : (adev_open_input_stream rate).fst.pcm = none := by
    by_cases h : rate = 0 <;> simp [adev_open_input_stream, h]
  refine ⟨h0, ?_, ?_⟩
  · rw [in_apply_foldl_pcm]
    exact h0
  · show (ops.foldl in_apply (adev_open_input_stream rate).fst).pcm = none
    rw [in_apply_foldl_pcm]
    exact h0

/-- Claim C10: adev_open_output_stream leaves the capability cache
untouched when the validity flag is set; when the flag is clear it
overwrites the cached configuration with the default output
configuration (stereo, 44100 Hz, 16-bit, period size 1024, period
count 4) and leaves the flag clear. -/
theorem adev_open_output_stream_cache_effect
    (chanMaskFromCount : Nat → Nat) (c : CacheState) (cfg : audio_config)
    (allocOk : Bool) (halloc : allocOk = true) :
    (c.cached = true →
      (adev_open_output_stream chanMaskFromCount allocOk c cfg).cache = c) ∧
    (c.cached = false →
      (adev_open_output_stream chanMaskFromCount allocOk c cfg).cache =
        { config := default_alsa_out_config, cached := false }) ∧
    default_alsa_out_config =
      { channels := 2
        rate := 44100
        period_size := 1024
        period_count := 4
        format := pcm_format.S16_LE } := by
  subst halloc
  refine ⟨?_, ?_, rfl⟩
  · intro h
    simp [adev_open_output_stream, h]
  · intro h
    simp [adev_open_output_stream, h]

/-- Concrete run of adev_open_output_stream_cache_effect: with a stale
invalid cache holding the input defaults, opening an output stream
overwrites the cache with the output defaults and keeps the flag
clear. -/
theorem adev_open_output_stream_cache_effect_witness :
    (true = true) ∧
    (adev_open_output_stream (fun c => c) true
      ⟨default_alsa_in_config, false⟩ ⟨0, 0, .PCM_16_BIT⟩).cache =
      { config := default_alsa_out_config, cached := false } :=
  ⟨rfl,
   (adev_open_output_stream_cache_effect (fun c => c)
      ⟨default_alsa_in_config, false⟩ ⟨0, 0, .PCM_16_BIT⟩ true rfl).2.1 rfl⟩

end UsbAudioHw
